import Mathlib

/-!
Verification development for the DesktopMascot repository.

The repository ships a thin entry point (`app.pyw`: logging setup and
application startup) together with a specification of the cross-thread
bridge-and-lifecycle core (Event Bridge, Turn Coordinator, State Store).
The core itself is not among the provided source files, so its model below
is taken from the specification text; the `app.pyw` functions
(`_setup_logging`, `main`) are embedded directly from the source.

Concurrency is modelled by an explicit action alphabet (submit, deliver an
event, coordinator timer firing, clock tick) applied in arbitrary
interleavings to a single coordinator state, which matches the spec's
design: all domain mutation happens on the one consuming thread, and
worker threads communicate only by posting immutable events.
-/

namespace DesktopMascot

/-! ### Core data model (modelled from the spec, section 3) -/

/-- Modelled from the spec: cause attached to a `Failed` terminal state
(`LlmFailed` gives a worker failure, `LlmTimeout` gives a timeout cause). -/
inductive FailCause where
  | worker
  | timeout
deriving DecidableEq, Repr

/-- Modelled from the spec: the state of a conversational Turn.
`awaitingInput` is the transient pre-state; `completed`, `cancelled` and
`failed` are terminal. -/
inductive TurnState where
  | awaitingInput
  | inFlight
  | completed
  | cancelled
  | failed (cause : FailCause)
deriving DecidableEq, Repr

/-- Whether a turn state is terminal (`Completed`, `Cancelled`, or `Failed`). -/
def TurnState.isTerminal : TurnState → Bool
  | .completed => true
  | .cancelled => true
  | .failed _ => true
  | _ => false

/-- Modelled from the spec: a Turn record (`id` monotonically increasing and
assigned at creation, `state`, `userText`, `startedAt`, `deadline`). -/
structure Turn where
  id : Nat
  state : TurnState
  userText : String
  startedAt : Nat
  deadline : Nat
deriving DecidableEq, Repr

/-- Modelled from the spec: the `kind` tag of an Event, with its payload. -/
inductive EventKind where
  | speechResult (text : String)
  | speechFailed (detail : String)
  | llmResult (text : String)
  | llmFailed (detail : String)
  | llmTimeout
  | configReloaded
deriving DecidableEq, Repr

/-- Modelled from the spec: an immutable Event crossing from a worker thread
to the bridge (`kind`, nullable `turnId`, `timestamp`). -/
structure Event where
  kind : EventKind
  turnId : Option Nat
  timestamp : Nat
deriving DecidableEq, Repr

/-- Modelled from the spec: one ConversationHistory entry (role, text,
timestamp). -/
structure Entry where
  role : String
  text : String
  timestamp : Nat
deriving DecidableEq, Repr

/-! ### Event Bridge (modelled from the spec, section 4.1) -/

/-- Modelled from the spec: an event tagged with the identity of the
producer thread that sent it, used to state the FIFO-per-producer
property. -/
structure ProdEvent where
  producer : Nat
  ev : Event
deriving DecidableEq, Repr

/-- Modelled from the spec: the Event Bridge.  A logically unbounded FIFO
queue plus the one-way shutdown flag.  The capacity guard (`QueueOverflow`
diagnostics for runaway producers) is a diagnostic edge the spec leaves
quantitatively open; the model here covers operation within capacity. -/
structure Bridge where
  queue : List ProdEvent
  isShutdown : Bool
deriving DecidableEq, Repr

/-- Modelled from the spec: `send(event)` appends to the queue; a `send`
after the bridge has been shut down is a silent no-op. -/
def Bridge.send (b : Bridge) (pe : ProdEvent) : Bridge :=
  if b.isShutdown then b else { b with queue := b.queue ++ [pe] }

/-- Modelled from the spec: `drain()` returns the queued events as a batch
in strict arrival (FIFO) order and empties the queue. -/
def Bridge.drainAll (b : Bridge) : List ProdEvent × Bridge :=
  (b.queue, { b with queue := [] })

/-- Apply a whole interleaving of `send` calls (from any mix of producers)
to the bridge, in arrival order. -/
def Bridge.sendAll (b : Bridge) (pes : List ProdEvent) : Bridge :=
  pes.foldl Bridge.send b

/-- The subsequence of an interleaving contributed by one producer. -/
def byProducer (p : Nat) (pes : List ProdEvent) : List ProdEvent :=
  pes.filter (fun pe => pe.producer == p)

/-! ### Turn Coordinator and State Store (modelled from the spec, 4.2/4.3) -/

/-- Modelled from the spec: the whole consuming-thread state — retained
Turns, the single "current turn id" pointer, the monotone id source, the
ConversationHistory with its configured cap, the configured `net.timeout`,
and the clock the coordinator's timer reads. -/
structure CoordState where
  turns : List Turn
  currentId : Option Nat
  nextId : Nat
  history : List Entry
  cap : Nat
  timeoutMs : Nat
  now : Nat
deriving DecidableEq, Repr

/-- Look a turn up by id (first match). -/
def findTurnIn (ts : List Turn) (i : Nat) : Option Turn :=
  ts.find? (fun t => t.id == i)

/-- The turn with the given id, as retained by the coordinator. -/
def CoordState.findTurn (s : CoordState) (i : Nat) : Option Turn :=
  findTurnIn s.turns i

/-- Modelled from the spec: oldest-first eviction down to the configured
cap — entries beyond the cap are dropped from the front. -/
def evict (cap : Nat) (h : List Entry) : List Entry :=
  h.drop (h.length - cap)

/-- Modelled from the spec: the history mutation performed by
`appendTurnResult` — append one entry, then evict oldest entries beyond
the configured cap. -/
def appendEntry (cap : Nat) (h : List Entry) (e : Entry) : List Entry :=
  evict cap (h ++ [e])

/-- Modelled from the spec: the short fallback message rendered for a
failed or timed-out turn. -/
def fallbackText : String := "(fallback)"

/-- Cancel the turn with the current id if it is in flight (the
`InFlight` to `Cancelled` transition forced by a newer submit). -/
def cancelIfInFlight (i : Nat) (t : Turn) : Turn :=
  if t.id = i ∧ t.state = .inFlight then { t with state := .cancelled } else t

/-- Modelled from the spec: on submit, a prior `InFlight` Turn is first
forced to `Cancelled` (a normal transition, never an error). -/
def cancelCurrent (s : CoordState) : CoordState :=
  { s with turns :=
      match s.currentId with
      | none => s.turns
      | some i => s.turns.map (cancelIfInFlight i) }

/-- Modelled from the spec: create the new Turn — fresh monotone id, state
`InFlight`, deadline `now + net.timeout` — and point the coordinator's
current-id at it. -/
def startTurn (text : String) (s : CoordState) : CoordState :=
  { s with
    turns := s.turns ++ [⟨s.nextId, .inFlight, text, s.now, s.now + s.timeoutMs⟩],
    currentId := some s.nextId,
    nextId := s.nextId + 1 }

/-- Modelled from the spec: `submit(userText)` — cancel the prior in-flight
turn, then create the new one (in that order). -/
def submit (text : String) (s : CoordState) : CoordState :=
  startTurn text (cancelCurrent s)

/-- Set the state of the turn with the given id, leaving every other field
and every other turn unchanged. -/
def applyState (i : Nat) (st : TurnState) (t : Turn) : Turn :=
  if t.id = i then { t with state := st } else t

/-- Update the retained turn with the given id to the given state. -/
def setTurnState (i : Nat) (st : TurnState) (ts : List Turn) : List Turn :=
  ts.map (applyState i st)

/-- A render instruction issued to the presentation layer as a consequence
of a drained event. -/
inductive Render where
  | message (text : String)
deriving DecidableEq, Repr

/-- Modelled from the spec: `InFlight → Completed` on a matching
`LlmResult`; history gains the user entry and the assistant entry, in that
order, each through the capped append. -/
def completeTurn (i : Nat) (t : Turn) (text : String) (s : CoordState) : CoordState :=
  { s with
    turns := setTurnState i .completed s.turns,
    history := appendEntry s.cap
      (appendEntry s.cap s.history ⟨"user", t.userText, s.now⟩)
      ⟨"assistant", text, s.now⟩ }

/-- Modelled from the spec: `InFlight → Failed` on a matching `LlmFailed`
or `LlmTimeout`; exactly one fallback entry is appended. -/
def failTurn (i : Nat) (c : FailCause) (s : CoordState) : CoordState :=
  { s with
    turns := setTurnState i (.failed c) s.turns,
    history := appendEntry s.cap s.history ⟨"assistant", fallbackText, s.now⟩ }

/-- Modelled from the spec: the coordinator's reaction to one drained
event.  An event acts only when its `turnId` matches the current turn id
AND that turn is still `InFlight`; late events bearing a stale id, and any
event reaching a turn already in a terminal state, are ignored — no state
change, no history mutation, no render. -/
def handleEvent (ev : Event) (s : CoordState) : CoordState × Option Render :=
  match ev.turnId with
  | none => (s, none)
  | some i =>
    if s.currentId = some i then
      match s.findTurn i with
      | some t =>
        if t.state = .inFlight then
          match ev.kind with
          | .llmResult text => (completeTurn i t text s, some (.message text))
          | .llmFailed _ => (failTurn i .worker s, some (.message fallbackText))
          | .llmTimeout => (failTurn i .timeout s, some (.message fallbackText))
          | _ => (s, none)
        else (s, none)
      | none => (s, none)
    else (s, none)

/-- Modelled from the spec: the coordinator owns the deadline timer.  When
the timer fires and the current turn is still `InFlight` past its
deadline, the coordinator synthesizes an `LlmTimeout` event itself and
handles it. -/
def fireTimer (s : CoordState) : CoordState × Option Render :=
  match s.currentId with
  | none => (s, none)
  | some i =>
    match s.findTurn i with
    | some t =>
      if t.state = .inFlight ∧ t.deadline ≤ s.now then
        handleEvent ⟨.llmTimeout, some i, s.now⟩ s
      else (s, none)
    | none => (s, none)

/-- Advance the clock the coordinator's timer facility reads. -/
def tick (n : Nat) (s : CoordState) : CoordState :=
  { s with now := s.now + n }

/-- One consuming-thread action: a user submit, one drained worker event,
the coordinator's timer firing, or time passing. -/
inductive Action where
  | submit (text : String)
  | deliver (ev : Event)
  | fire
  | tick (n : Nat)
deriving DecidableEq, Repr

/-- The consuming thread's transition function. -/
def step (a : Action) (s : CoordState) : CoordState :=
  match a with
  | .submit text => submit text s
  | .deliver ev => (handleEvent ev s).1
  | .fire => (fireTimer s).1
  | .tick n => tick n s

/-- Run a whole interleaving of actions. -/
def run (acts : List Action) (s : CoordState) : CoordState :=
  acts.foldl (fun s a => step a s) s

/-- The coordinator's startup state for a configured history cap and
`net.timeout`. -/
def initState (cap timeoutMs : Nat) : CoordState :=
  { turns := [], currentId := none, nextId := 0, history := [],
    cap := cap, timeoutMs := timeoutMs, now := 0 }

/-- States the coordinator can actually be in: reachable from startup by
some interleaving of submits, drained events, timer firings and ticks. -/
def Reachable (s : CoordState) : Prop :=
  ∃ cap timeoutMs acts, s = run acts (initState cap timeoutMs)

/-- Number of retained turns currently in state `InFlight`. -/
def countInFlight (s : CoordState) : Nat :=
  (s.turns.filter (fun t => t.state == .inFlight)).length

/-! ### Coordinator invariants -/

/-- The inductive invariant of the coordinator: every in-flight turn is the
current one, retained turn ids are pairwise distinct, and all ids are below
the id source. -/
def Inv (s : CoordState) : Prop :=
  (∀ t ∈ s.turns, t.state = .inFlight → s.currentId = some t.id) ∧
  s.turns.Pairwise (fun a b => a.id ≠ b.id) ∧
  (∀ t ∈ s.turns, t.id < s.nextId)

/-! ### Configuration reload (modelled from the spec, section 4.3) -/

/-- Modelled from the spec: the type tag of a configuration value. -/
inductive CfgType where
  | str
  | nat
  | bool
deriving DecidableEq, Repr

/-- Modelled from the spec: a typed configuration value. -/
inductive CfgValue where
  | str (s : String)
  | nat (n : Nat)
  | bool (b : Bool)
deriving DecidableEq, Repr

/-- The type tag a configuration value carries. -/
def CfgValue.typeOf : CfgValue → CfgType
  | .str _ => .str
  | .nat _ => .nat
  | .bool _ => .bool

/-- Modelled from the spec: a Configuration snapshot — a mapping of option
name to typed value, treated as immutable once published. -/
abbrev Config := List (String × CfgValue)

/-- Modelled from the spec: the error returned when a reload input fails to
parse or to validate. -/
inductive ConfigError where
  | parseFailure
  | missingKey (k : String)
  | wrongType (k : String)
deriving DecidableEq, Repr

/-- Modelled from the spec: the declared schema — the required option
names with their declared types. -/
structure Schema where
  required : List (String × CfgType)
deriving DecidableEq, Repr

/-- Look an option up in a raw mapping by name. -/
def lookupKey (c : List (String × CfgValue)) (k : String) : Option CfgValue :=
  (c.find? (fun p => p.1 == k)).map (fun p => p.2)

/-- Modelled from the spec: validation — every required key must exist and
carry a value of the declared type; the first violation is the error. -/
def checkRequired (raw : List (String × CfgValue)) :
    List (String × CfgType) → Option ConfigError
  | [] => none
  | (k, ty) :: rest =>
    match lookupKey raw k with
    | none => some (.missingKey k)
    | some v =>
      if v.typeOf = ty then checkRequired raw rest else some (.wrongType k)

/-- Modelled from the spec: parse then validate the reload input.  `none`
stands for input the parser rejects; `some raw` is the parsed document. -/
def parseValidate (sch : Schema) (input : Option (List (String × CfgValue))) :
    Except ConfigError Config :=
  match input with
  | none => .error .parseFailure
  | some raw =>
    match checkRequired raw sch.required with
    | some e => .error e
    | none => .ok raw

/-- Modelled from the spec: the holder of the published Configuration
snapshot, read concurrently, swapped only by the reload path. -/
structure ConfigStore where
  snapshot : Config
deriving DecidableEq

/-- Modelled from the spec: `reloadConfig` — parse, validate, and only on
full success atomically swap the published snapshot; any failure leaves
the previous snapshot untouched and returns the error. -/
def reloadConfig (sch : Schema) (input : Option (List (String × CfgValue)))
    (st : ConfigStore) : ConfigStore × Except ConfigError Config :=
  match parseValidate sch input with
  | .error e => (st, .error e)
  | .ok c => ({ st with snapshot := c }, .ok c)

/-! ### Embedding of src/app.pyw -/

/-- A Python exception value as seen by the except-clauses of `app.pyw`
(only its presence matters to control flow). -/
inductive PyExc where
  | exc (msg : String)
deriving DecidableEq, Repr

/-- A root-logger handler as `_setup_logging` builds them: the
`RotatingFileHandler` (filename, maxBytes, backupCount, encoding) or the
console `StreamHandler`, with its level and whether the shared formatter
has been set on it. -/
inductive Handler where
  | rotatingFile (filename : String) (maxBytes backupCount : Nat)
      (encoding : String) (level : Option Nat) (hasFmt : Bool)
  | stream (level : Option Nat) (hasFmt : Bool)
deriving DecidableEq, Repr

/-- The state `_setup_logging` manipulates: the root logger's level and
handler list, and whether `sys.excepthook` has been replaced by the
module's `_excepthook`. -/
structure LoggingState where
  rootLevel : Option Nat
  handlers : List Handler
  excepthookInstalled : Bool
deriving DecidableEq, Repr

/-- The value `logging.INFO`. -/
def INFO : Nat := 20

/-- The log file path `BASE_DIR/logs/edo.log`, relative to `BASE_DIR`. -/
def logFilePath : String := "logs/edo.log"

/-- The environment one `_setup_logging` call runs in: whether each
fallible step (logs-directory mkdir, `RotatingFileHandler` construction,
`StreamHandler` construction) succeeds or raises. -/
structure SetupEnv where
  mkdirOk : Bool
  fileHandlerOk : Bool
  streamHandlerOk : Bool
deriving DecidableEq, Repr

/-- The call `logs_dir.mkdir(parents=True, exist_ok=True)` — fallible primitive. -/
def mkdirRaw (env : SetupEnv) : Except PyExc Unit :=
  if env.mkdirOk then .ok () else .error (.exc "mkdir failed")

/-- The call `RotatingFileHandler(filename=..., maxBytes=..., backupCount=...,
encoding=...)` — fallible primitive; a fresh handler has no level and no
formatter configured yet. -/
def rotatingFileHandlerRaw (env : SetupEnv) (filename : String)
    (maxBytes backupCount : Nat) (encoding : String) : Except PyExc Handler :=
  if env.fileHandlerOk then
    .ok (.rotatingFile filename maxBytes backupCount encoding none false)
  else .error (.exc "cannot open log file")

/-- The call `logging.StreamHandler()` — fallible primitive. -/
def streamHandlerRaw (env : SetupEnv) : Except PyExc Handler :=
  if env.streamHandlerOk then .ok (.stream none false)
  else .error (.exc "cannot create stream handler")

/-- The calls `h.setFormatter(fmt); h.setLevel(logging.INFO)` as `_setup_logging`
does to each handler it builds. -/
def configureHandler : Handler → Handler
  | .rotatingFile f m b e _ _ => .rotatingFile f m b e (some INFO) true
  | .stream _ _ => .stream (some INFO) true

/-- Embedding of `_setup_logging` (src/app.pyw lines 21-76).  The guarded
mkdir attempt comes first and touches no logging state; then the
early-return when the root logger already has handlers; then level,
formatter, the two individually-guarded handler constructions (a failure
merely omits that handler), and the excepthook installation.  The return
type records that an uncaught exception would propagate to the caller. -/
def setupLogging (env : SetupEnv) (s : LoggingState) :
    Except PyExc LoggingState :=
  let _mkdir : Unit :=
    match mkdirRaw env with
    | .ok u => u
    | .error _ => ()
  if s.handlers ≠ [] then
    .ok s
  else
    let s1 : LoggingState := { s with rootLevel := some INFO }
    let s2 : LoggingState :=
      match rotatingFileHandlerRaw env logFilePath (5 * 1024 * 1024) 3 "utf-8" with
      | .ok h => { s1 with handlers := s1.handlers ++ [configureHandler h] }
      | .error _ => s1
    let s3 : LoggingState :=
      match streamHandlerRaw env with
      | .ok h => { s2 with handlers := s2.handlers ++ [configureHandler h] }
      | .error _ => s2
    .ok { s3 with excepthookInstalled := true }

/-- The environment one `main` call runs in: the `_setup_logging`
environment, whether `QApplication(sys.argv)` (the consuming thread's
event loop) can be established, whether
`ui.settings_server.get_or_start(8766)` succeeds, and the code
`app.exec()` eventually returns. -/
structure MainEnv where
  setup : SetupEnv
  qappOk : Bool
  settingsServerOk : Bool
  execCode : Nat
deriving DecidableEq, Repr

/-- The log lines `main` emits. -/
inductive LogMsg where
  | appStarting
  | settingsServerUrl (port : Nat)
  | settingsServerFailed
  | appExiting (code : Nat)
deriving DecidableEq, Repr

/-- What one run of `main` did: the uncaught exception if one propagated,
the log lines, whether the mascot was created and shown, and the exit
code passed to `sys.exit`. -/
structure MainOutcome where
  fatal : Option PyExc
  logs : List LogMsg
  mascotShown : Bool
  exitCode : Option Nat
deriving DecidableEq, Repr

/-- The call `QApplication(sys.argv)` — establishing the consuming thread's event
loop; its failure is the one unguarded, fatal step of startup. -/
def qApplicationRaw (env : MainEnv) : Except PyExc Unit :=
  if env.qappOk then .ok () else .error (.exc "cannot establish event loop")

/-- The call `get_or_start(8766)` — fallible primitive; the port stands in for the
returned server object. -/
def getOrStartRaw (env : MainEnv) (port : Nat) : Except PyExc Nat :=
  if env.settingsServerOk then .ok port
  else .error (.exc "settings server failed")

/-- Embedding of `main` (src/app.pyw lines 81-96): logging setup, the
"Application starting..." log, the `QApplication` construction, the
guarded settings-server startup of lines 86-91 (its failure is caught,
logged via `logger.exception`, and startup continues), mascot
creation/show, the Qt event loop, and exit. -/
def main (env : MainEnv) (ls : LoggingState) : MainOutcome :=
  match setupLogging env.setup ls with
  | .error e =>
    { fatal := some e, logs := [], mascotShown := false, exitCode := none }
  | .ok _ls1 =>
    match qApplicationRaw env with
    | .error e =>
      { fatal := some e, logs := [.appStarting], mascotShown := false,
        exitCode := none }
    | .ok _ =>
      let srvLog : LogMsg :=
        match getOrStartRaw env 8766 with
        | .ok p => .settingsServerUrl p
        | .error _ => .settingsServerFailed
      { fatal := none,
        logs := [.appStarting, srvLog, .appExiting env.execCode],
        mascotShown := true,
        exitCode := some env.execCode }


/-! ### Theorems -/

theorem Bridge.send_queue_of_not_shutdown (b : Bridge) (pe : ProdEvent)
    (h : b.isShutdown = false) : (b.send pe).queue = b.queue ++ [pe] := by
  simp [Bridge.send, h]

theorem Bridge.send_isShutdown (b : Bridge) (pe : ProdEvent) :
    (b.send pe).isShutdown = b.isShutdown := by
  unfold Bridge.send
  split <;> rfl

theorem Bridge.sendAll_isShutdown (b : Bridge) (pes : List ProdEvent) :
    (b.sendAll pes).isShutdown = b.isShutdown := by
  induction pes generalizing b with
  | nil => rfl
  | cons pe rest ih =>
    simp only [Bridge.sendAll, List.foldl_cons] at *
    rw [ih, Bridge.send_isShutdown]

theorem Bridge.sendAll_queue_of_not_shutdown (b : Bridge) (pes : List ProdEvent)
    (h : b.isShutdown = false) : (b.sendAll pes).queue = b.queue ++ pes := by
  induction pes generalizing b with
  | nil => simp [Bridge.sendAll]
  | cons pe rest ih =>
    simp only [Bridge.sendAll, List.foldl_cons] at *
    rw [ih _ (by rw [Bridge.send_isShutdown]; exact h),
      Bridge.send_queue_of_not_shutdown _ _ h]
    simp

theorem cancelIfInFlight_id (i : Nat) (t : Turn) :
    (cancelIfInFlight i t).id = t.id := by
  unfold cancelIfInFlight
  split <;> rfl

theorem applyState_id (i : Nat) (st : TurnState) (t : Turn) :
    (applyState i st t).id = t.id := by
  unfold applyState
  split <;> rfl

theorem cancelCurrent_currentId (s : CoordState) :
    (cancelCurrent s).currentId = s.currentId := rfl

theorem cancelCurrent_nextId (s : CoordState) :
    (cancelCurrent s).nextId = s.nextId := rfl

theorem cancelCurrent_now (s : CoordState) :
    (cancelCurrent s).now = s.now := rfl

theorem cancelCurrent_history (s : CoordState) :
    (cancelCurrent s).history = s.history := rfl

theorem mem_cancelCurrent_turns (s : CoordState) (t : Turn)
    (ht : t ∈ (cancelCurrent s).turns) :
    ∃ t0 ∈ s.turns, t.id = t0.id := by
  unfold cancelCurrent at ht
  dsimp only at ht
  split at ht
  · exact ⟨t, ht, rfl⟩
  · rename_i i _
    simp only [List.mem_map] at ht
    obtain ⟨t0, ht0, rfl⟩ := ht
    exact ⟨t0, ht0, cancelIfInFlight_id i t0⟩

theorem cancelCurrent_not_inFlight (s : CoordState)
    (h1 : ∀ t ∈ s.turns, t.state = .inFlight → s.currentId = some t.id) :
    ∀ t ∈ (cancelCurrent s).turns, t.state ≠ .inFlight := by
  intro t ht hfly
  unfold cancelCurrent at ht
  dsimp only at ht
  split at ht
  · rename_i hc
    have := h1 t ht hfly
    rw [hc] at this
    exact Option.noConfusion this
  · rename_i i hc
    simp only [List.mem_map] at ht
    obtain ⟨t0, ht0, rfl⟩ := ht
    unfold cancelIfInFlight at hfly
    by_cases hcond : t0.id = i ∧ t0.state = .inFlight
    · rw [if_pos hcond] at hfly
      exact TurnState.noConfusion hfly
    · rw [if_neg hcond] at hfly
      have := h1 t0 ht0 hfly
      rw [hc] at this
      exact hcond ⟨(Option.some.inj this).symm, hfly⟩

theorem cancelCurrent_pairwise (s : CoordState)
    (h2 : s.turns.Pairwise (fun a b => a.id ≠ b.id)) :
    (cancelCurrent s).turns.Pairwise (fun a b => a.id ≠ b.id) := by
  show (match s.currentId with
    | none => s.turns
    | some i => s.turns.map (cancelIfInFlight i)).Pairwise _
  split
  · exact h2
  · refine List.Pairwise.map _ (fun a b hab => ?_) h2
    rw [cancelIfInFlight_id, cancelIfInFlight_id]
    exact hab

theorem cancelCurrent_ids_lt (s : CoordState)
    (h3 : ∀ t ∈ s.turns, t.id < s.nextId) :
    ∀ t ∈ (cancelCurrent s).turns, t.id < s.nextId := by
  intro t ht
  obtain ⟨t0, ht0, hid⟩ := mem_cancelCurrent_turns s t ht
  rw [hid]
  exact h3 t0 ht0

theorem inv_startTurn (text : String) (s : CoordState)
    (hno : ∀ t ∈ s.turns, t.state ≠ .inFlight)
    (h2 : s.turns.Pairwise (fun a b => a.id ≠ b.id))
    (h3 : ∀ t ∈ s.turns, t.id < s.nextId) :
    Inv (startTurn text s) := by
  unfold startTurn Inv
  refine ⟨?_, ?_, ?_⟩
  · intro t ht hfly
    simp only [List.mem_append, List.mem_singleton] at ht
    rcases ht with ht | rfl
    · exact absurd hfly (hno t ht)
    · rfl
  · rw [List.pairwise_append]
    refine ⟨h2, List.pairwise_singleton _ _, ?_⟩
    intro a ha b hb
    simp only [List.mem_singleton] at hb
    subst hb
    exact Nat.ne_of_lt (h3 a ha)
  · intro t ht
    simp only [List.mem_append, List.mem_singleton] at ht
    rcases ht with ht | rfl
    · exact Nat.lt_succ_of_lt (h3 t ht)
    · exact Nat.lt_succ_self _

theorem inv_submit (text : String) (s : CoordState) (h : Inv s) :
    Inv (submit text s) := by
  obtain ⟨h1, h2, h3⟩ := h
  unfold submit
  exact inv_startTurn text (cancelCurrent s)
    (cancelCurrent_not_inFlight s h1)
    (cancelCurrent_pairwise s h2)
    (cancelCurrent_ids_lt s h3)

theorem inv_setTurnState (s : CoordState) (h : Inv s) (i : Nat)
    (st : TurnState) (hst : st ≠ .inFlight) (hist : List Entry) :
    Inv { s with turns := setTurnState i st s.turns, history := hist } := by
  obtain ⟨h1, h2, h3⟩ := h
  refine ⟨?_, ?_, ?_⟩
  · intro t ht hfly
    simp only [setTurnState, List.mem_map] at ht
    obtain ⟨t0, ht0, rfl⟩ := ht
    unfold applyState at hfly ⊢
    by_cases hcond : t0.id = i
    · rw [if_pos hcond] at hfly
      exact absurd hfly hst
    · rw [if_neg hcond] at hfly
      rw [if_neg hcond]
      exact h1 t0 ht0 hfly
  · refine List.Pairwise.map _ (fun a b hab => ?_) h2
    rw [applyState_id, applyState_id]
    exact hab
  · intro t ht
    simp only [setTurnState, List.mem_map] at ht
    obtain ⟨t0, ht0, rfl⟩ := ht
    rw [applyState_id]
    exact h3 t0 ht0

theorem inv_handleEvent (ev : Event) (s : CoordState) (h : Inv s) :
    Inv (handleEvent ev s).1 := by
  unfold handleEvent
  split
  · exact h
  · split
    · split
      · split
        · split
          · exact inv_setTurnState s h _ .completed (by decide) _
          · exact inv_setTurnState s h _ (.failed .worker) (by decide) _
          · exact inv_setTurnState s h _ (.failed .timeout) (by decide) _
          · exact h
        · exact h
      · exact h
    · exact h

theorem inv_fireTimer (s : CoordState) (h : Inv s) : Inv (fireTimer s).1 := by
  unfold fireTimer
  split
  · exact h
  · split
    · split
      · exact inv_handleEvent _ s h
      · exact h
    · exact h

theorem inv_tick (n : Nat) (s : CoordState) (h : Inv s) : Inv (tick n s) := h

theorem inv_step (a : Action) (s : CoordState) (h : Inv s) : Inv (step a s) := by
  cases a with
  | submit text => exact inv_submit text s h
  | deliver ev => exact inv_handleEvent ev s h
  | fire => exact inv_fireTimer s h
  | tick n => exact inv_tick n s h

theorem inv_run (acts : List Action) (s : CoordState) (h : Inv s) :
    Inv (run acts s) := by
  induction acts generalizing s with
  | nil => exact h
  | cons a rest ih =>
    exact ih (step a s) (inv_step a s h)

theorem inv_initState (cap timeoutMs : Nat) : Inv (initState cap timeoutMs) := by
  refine ⟨?_, ?_, ?_⟩ <;> simp [initState]

theorem reachable_inv (s : CoordState) (h : Reachable s) : Inv s := by
  obtain ⟨cap, timeoutMs, acts, rfl⟩ := h
  exact inv_run acts _ (inv_initState cap timeoutMs)

theorem length_le_one_of_same_target (cur : Nat) (l : List Turn)
    (hp : l.Pairwise (fun a b => a.id ≠ b.id))
    (hall : ∀ t ∈ l, t.id = cur) : l.length ≤ 1 := by
  match l with
  | [] => simp
  | [x] => simp
  | x :: y :: rest =>
    exfalso
    have hx := hall x (by simp)
    have hy := hall y (by simp)
    have hne := (List.pairwise_cons.mp hp).1 y (by simp)
    exact hne (hx.trans hy.symm)

theorem countInFlight_le_one_of_inv (s : CoordState) (h : Inv s) :
    countInFlight s ≤ 1 := by
  obtain ⟨h1, h2, h3⟩ := h
  unfold countInFlight
  cases hc : s.currentId with
  | none =>
    have : s.turns.filter (fun t => t.state == .inFlight) = [] := by
      rw [List.filter_eq_nil_iff]
      intro t ht hfly
      have := h1 t ht (by simpa using hfly)
      rw [hc] at this
      exact Option.noConfusion this
    rw [this]
    simp
  | some cur =>
    refine length_le_one_of_same_target cur _ ?_ ?_
    · exact List.Pairwise.sublist (List.filter_sublist _) h2
    · intro t ht
      rw [List.mem_filter] at ht
      have := h1 t ht.1 (by simpa using ht.2)
      rw [hc] at this
      exact (Option.some.inj this).symm

/-! ### Lookup lemmas -/

theorem findTurnIn_id (ts : List Turn) (j : Nat) (t : Turn)
    (h : findTurnIn ts j = some t) : t.id = j := by
  have := List.find?_some h
  simpa using this

theorem findTurnIn_map_of_id (f : Turn → Turn) (hf : ∀ t, (f t).id = t.id)
    (ts : List Turn) (j : Nat) :
    findTurnIn (ts.map f) j = (findTurnIn ts j).map f := by
  induction ts with
  | nil => rfl
  | cons t rest ih =>
    unfold findTurnIn at *
    by_cases hj : t.id = j
    · rw [List.map_cons, List.find?_cons_of_pos _ (by simpa [hf] using hj),
        List.find?_cons_of_pos _ (by simpa using hj)]
      rfl
    · rw [List.map_cons, List.find?_cons_of_neg _ (by simpa [hf] using hj),
        List.find?_cons_of_neg _ (by simpa using hj)]
      exact ih

theorem findTurnIn_append_of_some (ts₁ ts₂ : List Turn) (j : Nat) (t : Turn)
    (h : findTurnIn ts₁ j = some t) :
    findTurnIn (ts₁ ++ ts₂) j = some t := by
  unfold findTurnIn at *
  rw [List.find?_append, h]
  rfl

theorem findTurnIn_setTurnState (ts : List Turn) (i : Nat) (st : TurnState)
    (j : Nat) :
    findTurnIn (setTurnState i st ts) j = (findTurnIn ts j).map (applyState i st) :=
  findTurnIn_map_of_id _ (applyState_id i st) ts j

theorem findTurnIn_setTurnState_self (ts : List Turn) (i : Nat)
    (st : TurnState) (t : Turn) (h : findTurnIn ts i = some t) :
    findTurnIn (setTurnState i st ts) i = some { t with state := st } := by
  rw [findTurnIn_setTurnState, h]
  show some (applyState i st t) = _
  unfold applyState
  rw [if_pos (findTurnIn_id ts i t h)]

theorem findTurnIn_setTurnState_of_ne (ts : List Turn) (i : Nat)
    (st : TurnState) (j : Nat) (t : Turn) (hij : i ≠ j)
    (h : findTurnIn ts j = some t) :
    findTurnIn (setTurnState i st ts) j = some t := by
  rw [findTurnIn_setTurnState, h]
  show some (applyState i st t) = some t
  unfold applyState
  rw [if_neg (fun he : t.id = i => hij (he.symm.trans (findTurnIn_id ts j t h)))]

theorem terminal_ne_inFlight (st : TurnState)
    (h : st.isTerminal = true) : st ≠ .inFlight := by
  intro he
  subst he
  exact Bool.noConfusion h

/-! ### Terminal states are absorbing -/

theorem findTurn_cancelCurrent_of_not_inFlight (s : CoordState) (j : Nat)
    (t : Turn) (hft : s.findTurn j = some t) (hfly : t.state ≠ .inFlight) :
    (cancelCurrent s).findTurn j = some t := by
  unfold CoordState.findTurn cancelCurrent at *
  dsimp only
  split
  · exact hft
  · rename_i i _
    rw [findTurnIn_map_of_id _ (cancelIfInFlight_id i) _ j, hft]
    show some (cancelIfInFlight i t) = some t
    unfold cancelIfInFlight
    rw [if_neg (fun hc => hfly hc.2)]

theorem findTurn_submit_of_not_inFlight (text : String) (s : CoordState)
    (j : Nat) (t : Turn) (hft : s.findTurn j = some t)
    (hfly : t.state ≠ .inFlight) :
    (submit text s).findTurn j = some t := by
  unfold submit startTurn CoordState.findTurn
  dsimp only
  exact findTurnIn_append_of_some _ _ j t
    (findTurn_cancelCurrent_of_not_inFlight s j t hft hfly)

theorem findTurn_handleEvent_of_not_inFlight (ev : Event) (s : CoordState)
    (j : Nat) (t : Turn) (hft : s.findTurn j = some t)
    (hfly : t.state ≠ .inFlight) :
    ((handleEvent ev s).1).findTurn j = some t := by
  unfold handleEvent
  split
  · exact hft
  · rename_i i _
    split
    · split
      · rename_i t' hft'
        split
        · rename_i hfly'
          have hij : i ≠ j := by
            intro he
            subst he
            rw [hft] at hft'
            obtain rfl := Option.some.inj hft'
            exact hfly hfly'
          split
          · unfold completeTurn CoordState.findTurn
            dsimp only
            exact findTurnIn_setTurnState_of_ne _ i _ j t hij hft
          · unfold failTurn CoordState.findTurn
            dsimp only
            exact findTurnIn_setTurnState_of_ne _ i _ j t hij hft
          · unfold failTurn CoordState.findTurn
            dsimp only
            exact findTurnIn_setTurnState_of_ne _ i _ j t hij hft
          · exact hft
        · exact hft
      · exact hft
    · exact hft

theorem findTurn_fireTimer_of_not_inFlight (s : CoordState)
    (j : Nat) (t : Turn) (hft : s.findTurn j = some t)
    (hfly : t.state ≠ .inFlight) :
    ((fireTimer s).1).findTurn j = some t := by
  unfold fireTimer
  split
  · exact hft
  · split
    · split
      · exact findTurn_handleEvent_of_not_inFlight _ s j t hft hfly
      · exact hft
    · exact hft

theorem findTurn_step_of_not_inFlight (a : Action) (s : CoordState)
    (j : Nat) (t : Turn) (hft : s.findTurn j = some t)
    (hfly : t.state ≠ .inFlight) :
    (step a s).findTurn j = some t := by
  cases a with
  | submit text => exact findTurn_submit_of_not_inFlight text s j t hft hfly
  | deliver ev => exact findTurn_handleEvent_of_not_inFlight ev s j t hft hfly
  | fire => exact findTurn_fireTimer_of_not_inFlight s j t hft hfly
  | tick n => exact hft

theorem findTurn_run_of_not_inFlight (acts : List Action) (s : CoordState)
    (j : Nat) (t : Turn) (hft : s.findTurn j = some t)
    (hfly : t.state ≠ .inFlight) :
    (run acts s).findTurn j = some t := by
  induction acts generalizing s with
  | nil => exact hft
  | cons a rest ih =>
    exact ih (step a s) (findTurn_step_of_not_inFlight a s j t hft hfly)

/-- From a state whose current turn is in flight, ticking to the deadline
and letting the coordinator's timer fire drives that turn to a terminal
state. -/
theorem progress_to_terminal (s : CoordState) (j : Nat) (t : Turn)
    (hcur : s.currentId = some j) (hft : s.findTurn j = some t)
    (hfly : t.state = .inFlight) :
    (run [Action.tick t.deadline, Action.fire] s).findTurn j =
      some { t with state := .failed .timeout } := by
  show ((fireTimer (tick t.deadline s)).1).findTurn j = _
  have hcur' : (tick t.deadline s).currentId = some j := hcur
  have hft' : (tick t.deadline s).findTurn j = some t := hft
  unfold fireTimer
  rw [hcur']
  dsimp only
  rw [hft']
  dsimp only
  rw [if_pos ⟨hfly, by show t.deadline ≤ s.now + t.deadline; omega⟩]
  unfold handleEvent
  dsimp only
  rw [if_pos hcur']
  show (match (tick t.deadline s).findTurn j with
    | some t => _ | none => _ : CoordState × Option Render).1.findTurn j = _
  rw [hft']
  dsimp only
  rw [if_pos hfly]
  unfold failTurn CoordState.findTurn
  dsimp only
  exact findTurnIn_setTurnState_self _ j _ t hft'

theorem findTurnIn_eq_none (ts : List Turn) (j : Nat)
    (h : ∀ t ∈ ts, t.id ≠ j) : findTurnIn ts j = none := by
  unfold findTurnIn
  rw [List.find?_eq_none]
  intro x hx
  simpa using h x hx

theorem mem_of_findTurn (s : CoordState) (j : Nat) (t : Turn)
    (h : s.findTurn j = some t) : t ∈ s.turns :=
  List.mem_of_find?_eq_some h

/-! ### Claims about the Turn Coordinator -/

/-- C1: for every reachable state of the Turn Coordinator, under any
interleaving of submit calls and drained events (and timer firings and
clock ticks), the number of Turns whose state is `InFlight` is at most 1. -/
theorem spec_c1_at_most_one_inFlight (s : CoordState) (h : Reachable s) :
    countInFlight s ≤ 1 :=
  countInFlight_le_one_of_inv s (reachable_inv s h)

theorem spec_c1_at_most_one_inFlight_witness :
    countInFlight (run [Action.submit "A", Action.submit "B"]
      (initState 4 100)) ≤ 1 :=
  spec_c1_at_most_one_inFlight _ ⟨4, 100, [Action.submit "A", Action.submit "B"], rfl⟩

/-- C2: each turn id undergoes at most one transition into a terminal
state and that state is absorbing — once a retained Turn is terminal, no
further interleaving of actions (late events with its id included) ever
changes it — and from a current in-flight turn a terminal transition is
always attainable (the coordinator's own timer forces `Failed`/timeout),
so each turn performs exactly one terminal transition, ever. -/
theorem spec_c2_terminal_once (s : CoordState) (j : Nat) (t : Turn) :
    (s.findTurn j = some t → t.state.isTerminal = true →
      ∀ acts, (run acts s).findTurn j = some t) ∧
    (s.currentId = some j → s.findTurn j = some t → t.state = .inFlight →
      ∃ acts t', (run acts s).findTurn j = some t' ∧
        t'.state.isTerminal = true) := by
  constructor
  · intro hft hterm acts
    exact findTurn_run_of_not_inFlight acts s j t hft
      (terminal_ne_inFlight _ hterm)
  · intro hcur hft hfly
    exact ⟨[Action.tick t.deadline, Action.fire],
      { t with state := .failed .timeout },
      progress_to_terminal s j t hcur hft hfly, rfl⟩

theorem spec_c2_terminal_once_witness :
    ((run [Action.fire]
        (run [Action.submit "hi",
          Action.deliver ⟨EventKind.llmResult "ok", some 0, 0⟩]
          (initState 2 100))).findTurn 0 =
      some ⟨0, TurnState.completed, "hi", 0, 100⟩) ∧
    (∃ acts t',
      ((run acts (run [Action.submit "hi"] (initState 2 100))).findTurn 0 =
        some t') ∧ t'.state.isTerminal = true) := by
  constructor
  · exact (spec_c2_terminal_once
      (run [Action.submit "hi",
        Action.deliver ⟨EventKind.llmResult "ok", some 0, 0⟩]
        (initState 2 100)) 0 ⟨0, TurnState.completed, "hi", 0, 100⟩).1
      (by rfl) (by rfl) [Action.fire]
  · exact (spec_c2_terminal_once
      (run [Action.submit "hi"] (initState 2 100)) 0
      ⟨0, TurnState.inFlight, "hi", 0, 100⟩).2 (by rfl) (by rfl) (by rfl)

theorem findTurn_cancelCurrent_self (s : CoordState) (a : Nat) (ta : Turn)
    (hcur : s.currentId = some a) (hft : s.findTurn a = some ta)
    (hfly : ta.state = .inFlight) :
    (cancelCurrent s).findTurn a = some { ta with state := .cancelled } := by
  unfold CoordState.findTurn at hft ⊢
  unfold cancelCurrent
  dsimp only
  rw [hcur]
  dsimp only
  rw [findTurnIn_map_of_id _ (cancelIfInFlight_id a), hft]
  show some (cancelIfInFlight a ta) = _
  unfold cancelIfInFlight
  rw [if_pos ⟨findTurnIn_id _ _ _ hft, hfly⟩]

theorem findTurn_cancelCurrent_nextId (s : CoordState)
    (h3 : ∀ t ∈ s.turns, t.id < s.nextId) :
    (cancelCurrent s).findTurn s.nextId = none := by
  show findTurnIn (cancelCurrent s).turns s.nextId = none
  apply findTurnIn_eq_none
  intro t ht
  have := cancelCurrent_ids_lt s h3 t ht
  omega

theorem findTurn_submit_self (text : String) (s : CoordState)
    (h3 : ∀ t ∈ s.turns, t.id < s.nextId) :
    (submit text s).findTurn s.nextId =
      some ⟨s.nextId, .inFlight, text, s.now, s.now + s.timeoutMs⟩ := by
  have hnone : findTurnIn (cancelCurrent s).turns s.nextId = none :=
    findTurn_cancelCurrent_nextId s h3
  unfold submit startTurn CoordState.findTurn
  dsimp only
  unfold findTurnIn at hnone ⊢
  rw [List.find?_append, hnone]
  show Option.or none (List.find? (fun t : Turn => t.id == s.nextId)
    ([⟨s.nextId, .inFlight, text, s.now, s.now + s.timeoutMs⟩] : List Turn)) = _
  rw [List.find?_cons_of_pos _ (by simp)]
  rfl

theorem handleEvent_stale (ev : Event) (s₁ : CoordState) (a : Nat)
    (htid : ev.turnId = some a) (hne : s₁.currentId ≠ some a) :
    handleEvent ev s₁ = (s₁, none) := by
  unfold handleEvent
  rw [htid]
  dsimp only
  rw [if_neg hne]

/-- C4: while Turn A is in flight, submitting input B first forces A to
`Cancelled` (B's turn does not yet exist in the intermediate state), and
only then creates B's Turn `InFlight`; a subsequently delivered
`LlmResult` carrying A's id leaves the post-submit state completely
unchanged (in particular the ConversationHistory) and produces no render. -/
theorem spec_c4_cancel_then_ignore_stale (s : CoordState) (a : Nat) (ta : Turn)
    (hreach : Reachable s) (hcur : s.currentId = some a)
    (hft : s.findTurn a = some ta) (hfly : ta.state = .inFlight)
    (textB lateText : String) (ts : Nat) :
    (cancelCurrent s).findTurn a = some { ta with state := .cancelled } ∧
    (cancelCurrent s).findTurn s.nextId = none ∧
    (submit textB s).findTurn a = some { ta with state := .cancelled } ∧
    (submit textB s).findTurn s.nextId =
      some ⟨s.nextId, .inFlight, textB, s.now, s.now + s.timeoutMs⟩ ∧
    handleEvent ⟨.llmResult lateText, some a, ts⟩ (submit textB s) =
      (submit textB s, none) := by
  obtain ⟨h1, h2, h3⟩ := reachable_inv s hreach
  have hlt : a < s.nextId := by
    have hmem := mem_of_findTurn s a ta hft
    have := h3 ta hmem
    rw [findTurnIn_id _ _ _ hft] at this
    exact this
  have hcancel := findTurn_cancelCurrent_self s a ta hcur hft hfly
  refine ⟨hcancel, findTurn_cancelCurrent_nextId s h3, ?_, ?_, ?_⟩
  · show findTurnIn ((cancelCurrent s).turns ++ _) a = _
    exact findTurnIn_append_of_some _ _ a _ hcancel
  · exact findTurn_submit_self textB s h3
  · apply handleEvent_stale _ _ a rfl
    show some s.nextId ≠ some a
    intro he
    exact absurd (Option.some.inj he) (by omega)

theorem spec_c4_cancel_then_ignore_stale_witness :
    (cancelCurrent (run [Action.submit "A"] (initState 4 100))).findTurn 0 =
      some ⟨0, TurnState.cancelled, "A", 0, 100⟩ ∧
    (cancelCurrent (run [Action.submit "A"] (initState 4 100))).findTurn 1 =
      none ∧
    (submit "B" (run [Action.submit "A"] (initState 4 100))).findTurn 0 =
      some ⟨0, TurnState.cancelled, "A", 0, 100⟩ ∧
    (submit "B" (run [Action.submit "A"] (initState 4 100))).findTurn 1 =
      some ⟨1, TurnState.inFlight, "B", 0, 100⟩ ∧
    handleEvent ⟨.llmResult "late", some 0, 7⟩
        (submit "B" (run [Action.submit "A"] (initState 4 100))) =
      (submit "B" (run [Action.submit "A"] (initState 4 100)), none) :=
  spec_c4_cancel_then_ignore_stale
    (run [Action.submit "A"] (initState 4 100)) 0
    ⟨0, TurnState.inFlight, "A", 0, 100⟩
    ⟨4, 100, [Action.submit "A"], rfl⟩ (by rfl) (by rfl) (by rfl)
    "B" "late" 7

/-- C7: when the configured deadline of the current in-flight turn has
passed with no matching event, the coordinator's own timer synthesizes an
`LlmTimeout`: the Turn transitions to `Failed` with a `Timeout` cause,
exactly one fallback entry is appended to the ConversationHistory, and the
fallback is rendered. -/
theorem spec_c7_timeout_fallback (s : CoordState) (j : Nat) (t : Turn)
    (hcur : s.currentId = some j) (hft : s.findTurn j = some t)
    (hfly : t.state = .inFlight) (hdl : t.deadline ≤ s.now) :
    (fireTimer s).1.findTurn j = some { t with state := .failed .timeout } ∧
    (fireTimer s).1.history =
      appendEntry s.cap s.history ⟨"assistant", fallbackText, s.now⟩ ∧
    (fireTimer s).2 = some (.message fallbackText) := by
  have hfe : fireTimer s =
      (failTurn j .timeout s, some (Render.message fallbackText)) := by
    unfold fireTimer
    rw [hcur]
    dsimp only
    rw [hft]
    dsimp only
    rw [if_pos ⟨hfly, hdl⟩]
    unfold handleEvent
    dsimp only
    rw [if_pos hcur]
    show (match s.findTurn j with
      | some t => _
      | none => _ : CoordState × Option Render) = _
    rw [hft]
    dsimp only
    rw [if_pos hfly]
  rw [hfe]
  refine ⟨?_, rfl, rfl⟩
  unfold failTurn CoordState.findTurn
  dsimp only
  exact findTurnIn_setTurnState_self _ j _ t hft

theorem spec_c7_timeout_fallback_witness :
    (fireTimer (run [Action.submit "A", Action.tick 100]
      (initState 4 100))).1.findTurn 0 =
      some ⟨0, TurnState.failed FailCause.timeout, "A", 0, 100⟩ ∧
    (fireTimer (run [Action.submit "A", Action.tick 100]
      (initState 4 100))).1.history =
      appendEntry 4 [] ⟨"assistant", fallbackText, 100⟩ ∧
    (fireTimer (run [Action.submit "A", Action.tick 100]
      (initState 4 100))).2 = some (Render.message fallbackText) :=
  spec_c7_timeout_fallback
    (run [Action.submit "A", Action.tick 100] (initState 4 100)) 0
    ⟨0, TurnState.inFlight, "A", 0, 100⟩
    (by rfl) (by rfl) (by rfl) (by decide)

/-! ### Claim about the Event Bridge -/

/-- C3: for any interleaving of `send` calls from any mix of producers
into a live bridge, `drain` on the consuming thread returns the events in
exact global arrival order, so in particular the subsequence contributed
by each single producer is exactly the sequence that producer sent, in the
order it sent it — no reordering, no priority. -/
theorem spec_c3_fifo_per_producer (b : Bridge) (pes : List ProdEvent) (p : Nat)
    (hsd : b.isShutdown = false) (hq : b.queue = []) :
    (b.sendAll pes).drainAll.1 = pes ∧
    byProducer p ((b.sendAll pes).drainAll.1) = byProducer p pes := by
  have hqueue : (b.sendAll pes).queue = pes := by
    rw [Bridge.sendAll_queue_of_not_shutdown b pes hsd, hq]
    simp
  exact ⟨hqueue, by rw [show (b.sendAll pes).drainAll.1 =
    (b.sendAll pes).queue from rfl, hqueue]⟩

theorem spec_c3_fifo_per_producer_witness :
    ((Bridge.sendAll ⟨[], false⟩
      [⟨1, ⟨EventKind.llmResult "a", none, 0⟩⟩,
       ⟨2, ⟨EventKind.speechResult "b", none, 1⟩⟩,
       ⟨1, ⟨EventKind.llmResult "c", none, 2⟩⟩]).drainAll.1 =
      [⟨1, ⟨EventKind.llmResult "a", none, 0⟩⟩,
       ⟨2, ⟨EventKind.speechResult "b", none, 1⟩⟩,
       ⟨1, ⟨EventKind.llmResult "c", none, 2⟩⟩]) ∧
    byProducer 1 ((Bridge.sendAll ⟨[], false⟩
      [⟨1, ⟨EventKind.llmResult "a", none, 0⟩⟩,
       ⟨2, ⟨EventKind.speechResult "b", none, 1⟩⟩,
       ⟨1, ⟨EventKind.llmResult "c", none, 2⟩⟩]).drainAll.1) =
      byProducer 1
      [⟨1, ⟨EventKind.llmResult "a", none, 0⟩⟩,
       ⟨2, ⟨EventKind.speechResult "b", none, 1⟩⟩,
       ⟨1, ⟨EventKind.llmResult "c", none, 2⟩⟩] :=
  spec_c3_fifo_per_producer ⟨[], false⟩
    [⟨1, ⟨EventKind.llmResult "a", none, 0⟩⟩,
     ⟨2, ⟨EventKind.speechResult "b", none, 1⟩⟩,
     ⟨1, ⟨EventKind.llmResult "c", none, 2⟩⟩] 1 rfl rfl

/-! ### Claim about the ConversationHistory bound -/

theorem appendEntry_length_le (cap : Nat) (h : List Entry) (e : Entry) :
    (appendEntry cap h e).length ≤ cap := by
  simp only [appendEntry, evict, List.length_drop, List.length_append]
  omega

theorem handleEvent_history_le (ev : Event) (s : CoordState)
    (hh : s.history.length ≤ s.cap) :
    (handleEvent ev s).1.history.length ≤ s.cap := by
  unfold handleEvent
  split
  · exact hh
  · split
    · split
      · split
        · split
          · exact appendEntry_length_le _ _ _
          · exact appendEntry_length_le _ _ _
          · exact appendEntry_length_le _ _ _
          · exact hh
        · exact hh
      · exact hh
    · exact hh

theorem handleEvent_cap (ev : Event) (s : CoordState) :
    (handleEvent ev s).1.cap = s.cap := by
  unfold handleEvent
  split
  · rfl
  · split
    · split
      · split
        · split <;> rfl
        · rfl
      · rfl
    · rfl

theorem fireTimer_history_le (s : CoordState)
    (hh : s.history.length ≤ s.cap) :
    (fireTimer s).1.history.length ≤ s.cap := by
  unfold fireTimer
  split
  · exact hh
  · split
    · split
      · exact handleEvent_history_le _ s hh
      · exact hh
    · exact hh

theorem fireTimer_cap (s : CoordState) : (fireTimer s).1.cap = s.cap := by
  unfold fireTimer
  split
  · rfl
  · split
    · split
      · exact handleEvent_cap _ s
      · rfl
    · rfl

theorem step_history_le (a : Action) (s : CoordState)
    (hh : s.history.length ≤ s.cap) :
    (step a s).history.length ≤ (step a s).cap ∧ (step a s).cap = s.cap := by
  cases a with
  | submit text => exact ⟨hh, rfl⟩
  | deliver ev =>
    refine ⟨?_, handleEvent_cap ev s⟩
    rw [show (step (Action.deliver ev) s).cap = s.cap from handleEvent_cap ev s]
    exact handleEvent_history_le ev s hh
  | fire =>
    refine ⟨?_, fireTimer_cap s⟩
    rw [show (step Action.fire s).cap = s.cap from fireTimer_cap s]
    exact fireTimer_history_le s hh
  | tick n => exact ⟨hh, rfl⟩

theorem run_history_le (acts : List Action) (s : CoordState)
    (hh : s.history.length ≤ s.cap) :
    (run acts s).history.length ≤ (run acts s).cap := by
  induction acts generalizing s with
  | nil => exact hh
  | cons a rest ih =>
    have := step_history_le a s hh
    rw [← this.2] at this
    exact ih (step a s) this.1

theorem reachable_history_le (s : CoordState) (h : Reachable s) :
    s.history.length ≤ s.cap := by
  obtain ⟨cap, timeoutMs, acts, rfl⟩ := h
  exact run_history_le acts _ (Nat.zero_le _)

/-- C6: after every capped append (the history mutation of
`appendTurnResult`) the ConversationHistory length is at most the
configured cap — hence every reachable coordinator state satisfies the
bound — and when appending would exceed the cap, the removed entries are
exactly the oldest ones: the kept part is the exact tail of the appended
sequence, order preserved, and nothing is evicted while under the cap. -/
theorem spec_c6_history_capped :
    (∀ s : CoordState, Reachable s → s.history.length ≤ s.cap) ∧
    (∀ (cap : Nat) (h : List Entry) (e : Entry),
      (appendEntry cap h e).length ≤ cap ∧
      (h ++ [e]).take ((h ++ [e]).length - cap) ++ appendEntry cap h e =
        h ++ [e] ∧
      (h.length < cap → appendEntry cap h e = h ++ [e])) := by
  refine ⟨reachable_history_le, fun cap h e => ⟨appendEntry_length_le cap h e,
    List.take_append_drop _ _, fun hlt => ?_⟩⟩
  unfold appendEntry evict
  rw [show (h ++ [e]).length - cap = 0 by simp; omega, List.drop_zero]

theorem spec_c6_history_capped_witness :
    (run [Action.submit "A",
      Action.deliver ⟨EventKind.llmResult "r", some 0, 0⟩]
      (initState 1 50)).history.length ≤ 1 ∧
    ((appendEntry 2 [⟨"user", "x", 0⟩, ⟨"assistant", "y", 1⟩]
        ⟨"user", "z", 2⟩).length ≤ 2 ∧
      (([⟨"user", "x", 0⟩, ⟨"assistant", "y", 1⟩] : List Entry) ++
          ([⟨"user", "z", 2⟩] : List Entry)).take 1 ++
        appendEntry 2 [⟨"user", "x", 0⟩, ⟨"assistant", "y", 1⟩]
          ⟨"user", "z", 2⟩ =
        [⟨"user", "x", 0⟩, ⟨"assistant", "y", 1⟩] ++ [⟨"user", "z", 2⟩] ∧
      (([⟨"user", "x", 0⟩, ⟨"assistant", "y", 1⟩] :
          List Entry).length < 2 →
        appendEntry 2 [⟨"user", "x", 0⟩, ⟨"assistant", "y", 1⟩]
          ⟨"user", "z", 2⟩ =
        [⟨"user", "x", 0⟩, ⟨"assistant", "y", 1⟩] ++ [⟨"user", "z", 2⟩])) :=
  ⟨spec_c6_history_capped.1 _
    ⟨1, 50, [Action.submit "A",
      Action.deliver ⟨EventKind.llmResult "r", some 0, 0⟩], rfl⟩,
   spec_c6_history_capped.2 2 [⟨"user", "x", 0⟩, ⟨"assistant", "y", 1⟩]
     ⟨"user", "z", 2⟩⟩

/-- C5: an invalid reload input (parse failure, missing required key or
wrong type) makes `reloadConfig` return that `ConfigError` and leaves the
previously published snapshot completely unchanged; a new snapshot is
published only on full validation success, as one atomic swap of the
whole mapping. -/
theorem spec_c5_reload_error_preserves_snapshot (sch : Schema)
    (input : Option (List (String × CfgValue))) (st : ConfigStore) :
    (∀ e, parseValidate sch input = .error e →
      reloadConfig sch input st = (st, .error e)) ∧
    (∀ c, parseValidate sch input = .ok c →
      reloadConfig sch input st = ({ st with snapshot := c }, .ok c)) := by
  constructor
  · intro e he
    unfold reloadConfig
    rw [he]
  · intro c hc
    unfold reloadConfig
    rw [hc]

theorem spec_c5_reload_error_preserves_snapshot_witness :
    (reloadConfig ⟨[("net.timeout", CfgType.nat)]⟩
        (some [("net.answer_max_chars", CfgValue.nat 220)])
        ⟨[("net.timeout", CfgValue.nat 5000)]⟩ =
      (⟨[("net.timeout", CfgValue.nat 5000)]⟩,
        .error (ConfigError.missingKey "net.timeout"))) ∧
    (reloadConfig ⟨[("net.timeout", CfgType.nat)]⟩
        (some [("net.timeout", CfgValue.nat 8000)])
        ⟨[("net.timeout", CfgValue.nat 5000)]⟩ =
      (⟨[("net.timeout", CfgValue.nat 8000)]⟩,
        .ok [("net.timeout", CfgValue.nat 8000)])) :=
  ⟨(spec_c5_reload_error_preserves_snapshot ⟨[("net.timeout", CfgType.nat)]⟩
      (some [("net.answer_max_chars", CfgValue.nat 220)])
      ⟨[("net.timeout", CfgValue.nat 5000)]⟩).1
    (ConfigError.missingKey "net.timeout") (by rfl),
   (spec_c5_reload_error_preserves_snapshot ⟨[("net.timeout", CfgType.nat)]⟩
      (some [("net.timeout", CfgValue.nat 8000)])
      ⟨[("net.timeout", CfgValue.nat 5000)]⟩).2
    [("net.timeout", CfgValue.nat 8000)] (by rfl)⟩

theorem setupLogging_of_handlers_ne (env : SetupEnv) (s : LoggingState)
    (hne : s.handlers ≠ []) : setupLogging env s = .ok s := by
  unfold setupLogging
  dsimp only
  rw [if_pos hne]

theorem setupLogging_total (env : SetupEnv) (s : LoggingState) :
    ∃ s', setupLogging env s = .ok s' := by
  by_cases hemp : s.handlers = []
  · obtain ⟨mk, fo, so⟩ := env
    cases fo <;> cases so <;>
      exact ⟨_, by unfold setupLogging; dsimp only; rw [if_neg (not_not_intro hemp)]⟩
  · exact ⟨s, setupLogging_of_handlers_ne env s hemp⟩

theorem reachable_step (a : Action) (s : CoordState) (h : Reachable s) :
    Reachable (step a s) := by
  obtain ⟨cap, timeoutMs, acts, rfl⟩ := h
  exact ⟨cap, timeoutMs, acts ++ [a], by simp [run, List.foldl_append]⟩

/-! ### Claims about app.pyw and process survival -/

/-- C9: `_setup_logging` is idempotent — when the root logger already has
a handler the call leaves the whole logging state (level, handlers,
excepthook) unchanged, so a second call after a successful first call
(one that installed at least one handler) changes nothing, whatever
environment either call ran in. -/
theorem spec_c9_setup_logging_idempotent (env : SetupEnv) (s : LoggingState) :
    (s.handlers ≠ [] → setupLogging env s = .ok s) ∧
    (∀ (env₁ : SetupEnv) (s₁ : LoggingState),
      setupLogging env₁ s = .ok s₁ → s₁.handlers ≠ [] →
      setupLogging env s₁ = .ok s₁) := by
  exact ⟨fun hne => setupLogging_of_handlers_ne env s hne,
    fun env₁ s₁ _ h₁ => setupLogging_of_handlers_ne env s₁ h₁⟩

theorem spec_c9_setup_logging_idempotent_witness :
    setupLogging ⟨true, true, true⟩
      ⟨some 20, [Handler.stream (some 20) true], true⟩ =
      .ok ⟨some 20, [Handler.stream (some 20) true], true⟩ ∧
    setupLogging ⟨false, false, false⟩
      ⟨some 20,
        [Handler.rotatingFile "logs/edo.log" 5242880 3 "utf-8" (some 20) true],
        true⟩ =
      .ok ⟨some 20,
        [Handler.rotatingFile "logs/edo.log" 5242880 3 "utf-8" (some 20) true],
        true⟩ :=
  ⟨(spec_c9_setup_logging_idempotent ⟨true, true, true⟩
      ⟨some 20, [Handler.stream (some 20) true], true⟩).1 (by simp),
   (spec_c9_setup_logging_idempotent ⟨false, false, false⟩
      ⟨none, [], false⟩).2 ⟨true, true, false⟩
      ⟨some 20,
        [Handler.rotatingFile "logs/edo.log" 5242880 3 "utf-8" (some 20) true],
        true⟩ (by rfl) (by simp)⟩

/-- C10: `_setup_logging` is total with respect to environment failures —
whatever the outcomes of directory creation and the two handler
constructions (including raising), it returns normally, and a failing
handler construction merely omits that handler: starting from an
uninitialized root logger, the resulting handler list is exactly the
successfully constructed handlers, in construction order. -/
theorem spec_c10_setup_logging_never_raises (env : SetupEnv)
    (s : LoggingState) :
    ∃ s', setupLogging env s = .ok s' ∧
      (s.handlers = [] →
        s'.handlers =
          (if env.fileHandlerOk then
            [configureHandler
              (.rotatingFile logFilePath (5 * 1024 * 1024) 3 "utf-8" none false)]
          else []) ++
          (if env.streamHandlerOk then [configureHandler (.stream none false)]
          else [])) := by
  by_cases hemp : s.handlers = []
  · obtain ⟨lvl, hs, hk⟩ := s
    dsimp only at hemp
    subst hemp
    obtain ⟨mk, fo, so⟩ := env
    cases fo <;> cases so <;>
      exact ⟨_, rfl, fun _ => by
        simp [setupLogging, configureHandler, rotatingFileHandlerRaw,
          streamHandlerRaw]⟩
  · exact ⟨s, setupLogging_of_handlers_ne env s hemp,
      fun hh => absurd hh hemp⟩

theorem spec_c10_setup_logging_never_raises_witness :
    ∃ s', setupLogging ⟨false, false, true⟩ ⟨none, [], false⟩ = .ok s' ∧
      (([] : List Handler) = [] →
        s'.handlers =
          (if false then
            [configureHandler
              (.rotatingFile logFilePath (5 * 1024 * 1024) 3 "utf-8" none false)]
          else []) ++
          (if true then [configureHandler (.stream none false)] else [])) :=
  spec_c10_setup_logging_never_raises ⟨false, false, true⟩ ⟨none, [], false⟩

/-- C8: no operation of the core terminates the process.  On the `main`
side: the only fatal startup condition is failing to establish the
consuming thread's event loop (`QApplication`); in particular a failure
to start the local settings server is caught, logged, and startup
continues to show the mascot.  On the core side: delivering any worker
event — failures included — is a total transition into another reachable
coordinator state, never an escape. -/
theorem spec_c8_only_event_loop_is_fatal (env : MainEnv) (ls : LoggingState) :
    ((main env ls).fatal.isSome = true → env.qappOk = false) ∧
    (env.qappOk = true →
      (main env ls).fatal = none ∧
      (main env ls).mascotShown = true ∧
      (env.settingsServerOk = false →
        LogMsg.settingsServerFailed ∈ (main env ls).logs)) ∧
    (∀ (s : CoordState) (ev : Event), Reachable s →
      Reachable (handleEvent ev s).1) := by
  obtain ⟨ls1, hls1⟩ := setupLogging_total env.setup ls
  refine ⟨?_, ?_, fun s ev h => reachable_step (Action.deliver ev) s h⟩
  · intro hfatal
    unfold main at hfatal
    rw [hls1] at hfatal
    cases hq : env.qappOk with
    | false => rfl
    | true =>
      rw [show qApplicationRaw env = .ok () from by
        unfold qApplicationRaw; rw [hq]; rfl] at hfatal
      dsimp only at hfatal
      exact Bool.noConfusion hfatal
  · intro hq
    unfold main
    rw [hls1, show qApplicationRaw env = .ok () from by
      unfold qApplicationRaw; rw [hq]; rfl]
    dsimp only
    refine ⟨rfl, rfl, fun hso => ?_⟩
    rw [show getOrStartRaw env 8766 = .error (.exc "settings server failed")
      from by unfold getOrStartRaw; rw [hso]; rfl]
    dsimp only
    simp

theorem spec_c8_only_event_loop_is_fatal_witness :
    (main ⟨⟨true, true, true⟩, true, false, 0⟩ ⟨none, [], false⟩).fatal =
      none ∧
    (main ⟨⟨true, true, true⟩, true, false, 0⟩
      ⟨none, [], false⟩).mascotShown = true ∧
    LogMsg.settingsServerFailed ∈
      (main ⟨⟨true, true, true⟩, true, false, 0⟩ ⟨none, [], false⟩).logs ∧
    Reachable (handleEvent ⟨EventKind.llmFailed "boom", some 0, 1⟩
      (run [Action.submit "A"] (initState 4 100))).1 := by
  have h := spec_c8_only_event_loop_is_fatal
    ⟨⟨true, true, true⟩, true, false, 0⟩ ⟨none, [], false⟩
  exact ⟨(h.2.1 rfl).1, (h.2.1 rfl).2.1, (h.2.1 rfl).2.2 rfl,
    h.2.2 _ _ ⟨4, 100, [Action.submit "A"], rfl⟩⟩

end DesktopMascot
